import Mathlib

/-
Shallow embedding of deitch/go-sources-and-licenses (manifest parser,
lockfile parser, dependency walker, license scanner, module fetcher and
binary build-flag version derivation), with theorems checking the
specification claims against it.

Conventions of the embedding:
- a file read line-by-line (bufio.Scanner) becomes a List String of lines;
- Go maps become association lists with overwrite-on-insert semantics;
- machine I/O (HTTP, os.Stat, file creation) is passed in explicitly as
  oracle fields of an environment structure, and side effects are returned
  as explicit operation traces;
- a Go runtime panic (index out of range) is a distinguished result
  constructor, never a silently-total function.
-/

namespace GoSrc

/- Character-level string primitives. The Go standard-library string
operations used by the sources are re-implemented over the character list
of the string, so that every definition evaluates inside the kernel. -/

/-- Split of a character list at every character satisfying the test,
keeping empty pieces, as strings.Split and the piece structure of
strings.Fields. -/
def splitCharAux (p : Char → Bool) (cur : List Char) : List Char → List (List Char)
  | [] => [cur.reverse]
  | c :: rest =>
    if p c then cur.reverse :: splitCharAux p [] rest
    else splitCharAux p (c :: cur) rest

/-- Embedding of strings.Split with a one-character separator. -/
def splitAtChar (sep : Char) (s : String) : List String :=
  (splitCharAux (fun c => c = sep) [] s.data).map String.mk

/-- Embedding of strings.Join with a one-character separator, as used by
the path helpers. -/
def joinChar (sep : Char) : List String → String
  | [] => ""
  | [x] => x
  | x :: rest => x ++ String.mk [sep] ++ joinChar sep rest

/-- Embedding of strings.HasPrefix. -/
def strStarts (s piece : String) : Bool :=
  piece.data.isPrefixOf s.data

/-- Embedding of strings.HasSuffix. -/
def strEnds (s piece : String) : Bool :=
  piece.data.isSuffixOf s.data

/-- Embedding of strings.Contains for a one-character needle, as used for
the dot test of module names. -/
def containsChar (s : String) (c : Char) : Bool :=
  s.data.contains c

/-- Embedding of strings.ToLower on the character list. -/
def lowerS (s : String) : String :=
  String.mk (s.data.map Char.toLower)

/-- Embedding of strings.Replace of every slash by an underscore, the one
replacement the sources perform. -/
def replaceSlash (s : String) : String :=
  String.mk (s.data.map (fun c => if c = '/' then '_' else c))

/-- Embedding of Go strings.Fields: split around runs of whitespace,
dropping empty pieces. -/
def fields (s : String) : List String :=
  ((splitCharAux Char.isWhitespace [] s.data).map String.mk).filter (fun t => t ≠ "")

/-- Embedding of pkg.Package (src/pkg/sum.go). -/
structure Package where
  name : String
  version : String
  indirect : Bool := false
  hash : String := ""
deriving Repr, DecidableEq

/-- Embedding of Package.String: name ++ "@" ++ version. -/
def Package.str (p : Package) : String :=
  p.name ++ "@" ++ p.version

/-- Embedding of the per-line body of pkg.ParseSum (src/pkg/sum.go):
a line yields an entry when it has exactly 3 whitespace fields and the
second field does not end in "go.mod". -/
def sumEntry (line : String) : Option Package :=
  match fields line with
  | [a, b, _] =>
    if strEnds b "go.mod" then none
    else some { name := a, version := b }
  | _ => none

/-- Accumulator loop of pkg.ParseSum: appends the entry of each line in
order, mirroring the Go for-scan loop. -/
def parseSumLoop (acc : List Package) : List String → List Package
  | [] => acc
  | l :: ls => parseSumLoop (acc ++ (sumEntry l).toList) ls

/-- Embedding of pkg.ParseSum (src/pkg/sum.go). It is total: no line shape
produces an error. -/
def ParseSum (lines : List String) : List Package :=
  parseSumLoop [] lines

/-- Error outcomes of pkg.ParseMod: a returned error value, or a Go
runtime panic from an unguarded index. -/
inductive ParseErr where
  | malformed (msg : String)
  | panicked
deriving Repr, DecidableEq

/-- Embedding of pkg.ModFile (src/unnamed/part_005): the Replace Go map is
an association list with overwrite-on-insert semantics. -/
structure ModFile where
  name : String := ""
  goVersion : String := ""
  requires : List Package := []
  replace : List (String × Package) := []
deriving Repr, DecidableEq

/-- Go map assignment m[k] = v: overwrite the existing key or append. -/
def mapSet (m : List (String × Package)) (k : String) (v : Package) : List (String × Package) :=
  match m with
  | [] => [(k, v)]
  | (k0, v0) :: rest => if k0 = k then (k, v) :: rest else (k0, v0) :: mapSet rest k v

/-- Go map lookup m[k] with ok flag, as an Option. -/
def mapGet (m : List (String × Package)) (k : String) : Option Package :=
  match m with
  | [] => none
  | (k0, v0) :: rest => if k0 = k then some v0 else mapGet rest k

/-- Embedding of strings.Trim(s, quote): remove all leading and trailing
double-quote characters. -/
def trimQuotes (s : String) : String :=
  String.mk (((s.data.dropWhile (fun c => c = '"')).reverse.dropWhile (fun c => c = '"')).reverse)

/-- Embedding of requireEntry (src/unnamed/part_005): needs at least two
tokens; strips quotes from the name; the indirect flag needs more than 3
tokens with the last ending in "indirect". -/
def requireEntry (line : List String) : Except ParseErr Package :=
  match line with
  | t0 :: t1 :: _ =>
    let entry : Package := { name := trimQuotes t0, version := t1 }
    if line.length > 3 && strEnds line.getLast! "indirect" then
      .ok { entry with indirect := true }
    else
      .ok entry
  | _ => .error (.malformed "invalid go.mod: standalone require on a line")

/-- Token partition of a replace line at the arrow: every token equal to
the literal arrow flips the side and is dropped, mirroring the Go loop. -/
def splitArrowAux (inPre : Bool) (pre post : List String) : List String → List String × List String
  | [] => (pre, post)
  | t :: rest =>
    if t = "=>" then splitArrowAux false pre post rest
    else if inPre then splitArrowAux inPre (pre ++ [t]) post rest
    else splitArrowAux inPre pre (post ++ [t]) rest

/-- Embedding of replaceEntry (src/unnamed/part_005): tokens before the
arrow are the old coordinate, tokens after are the new one; either side
empty is an error; versions default to the empty string. -/
def replaceEntry (line : List String) : Except ParseErr (Package × Package) :=
  let pp := splitArrowAux true [] [] line
  match pp.1, pp.2 with
  | a0 :: atail, b0 :: btail =>
    let old : Package :=
      { name := trimQuotes a0, version := match atail with | v :: _ => v | [] => "" }
    let nw : Package :=
      { name := trimQuotes b0, version := match btail with | v :: _ => v | [] => "" }
    .ok (old, nw)
  | _, _ => .error (.malformed "invalid go.mod: invalid replace line")

/-- Parser state of pkg.ParseMod: the record built so far plus the three
open-block flags. -/
structure ParseState where
  mf : ModFile := {}
  inRequire : Bool := false
  inReplace : Bool := false
  inRetract : Bool := false
deriving Repr, DecidableEq

/-- Per-line dispatch of pkg.ParseMod on the whitespace fields of a line,
mirroring the Go switch in order: empty, module, go, require, replace,
retract, closing paren, then the in-block default cases. A module or go
directive with no second token is the unguarded index panic. -/
def parseFields (st : ParseState) : List String → Except ParseErr ParseState
  | [] => .ok st
  | p0 :: rest =>
    if p0 = "module" then
      if st.mf.name ≠ "" then .error (.malformed "invalid go.mod: multiple module lines")
      else
        match rest with
        | [] => .error .panicked
        | p1 :: _ => .ok { st with mf := { st.mf with name := p1 } }
    else if p0 = "go" then
      if st.mf.goVersion ≠ "" then .error (.malformed "invalid go.mod: multiple go lines")
      else
        match rest with
        | [] => .error .panicked
        | p1 :: _ => .ok { st with mf := { st.mf with goVersion := p1 } }
    else if p0 = "require" then
      if st.inRequire then .error (.malformed "invalid go.mod: nested require blocks")
      else
        match rest with
        | [] => .error (.malformed "invalid go.mod: standalone require on a line")
        | p1 :: _ =>
          if p1 = "(" then .ok { st with inRequire := true }
          else
            match requireEntry rest with
            | .error e => .error e
            | .ok entry => .ok { st with mf := { st.mf with requires := st.mf.requires ++ [entry] } }
    else if p0 = "replace" then
      if st.inReplace then .error (.malformed "invalid go.mod: nested replace blocks")
      else
        match rest with
        | [] => .error (.malformed "invalid go.mod: standalone replace on a line")
        | p1 :: _ =>
          if p1 = "(" then .ok { st with inReplace := true }
          else
            match replaceEntry rest with
            | .error e => .error e
            | .ok pr => .ok { st with mf := { st.mf with replace := mapSet st.mf.replace pr.1.str pr.2 } }
    else if p0 = "retract" then
      if st.inRetract then .error (.malformed "invalid go.mod: nested require blocks")
      else
        match rest with
        | [] => .error (.malformed "invalid go.mod: standalone retract on a line")
        | p1 :: _ =>
          if p1 = "(" then .ok { st with inRetract := true }
          else .ok st
    else if p0 = ")" then
      if st.inRequire then .ok { st with inRequire := false }
      else if st.inReplace then .ok { st with inReplace := false }
      else if st.inRetract then .ok { st with inRetract := false }
      else .error (.malformed "invalid go.mod: unexpected closing paren")
    else
      if st.inRequire then
        match requireEntry (p0 :: rest) with
        | .error e => .error e
        | .ok entry => .ok { st with mf := { st.mf with requires := st.mf.requires ++ [entry] } }
      else if st.inReplace then
        match replaceEntry (p0 :: rest) with
        | .error e => .error e
        | .ok pr => .ok { st with mf := { st.mf with replace := mapSet st.mf.replace pr.1.str pr.2 } }
      else if st.inRetract then .ok st
      else .error (.malformed "invalid go.mod: unexpected line")

/-- Per-line step of pkg.ParseMod: a line starting with a comment marker is
skipped, otherwise it is dispatched on its whitespace fields. -/
def parseLine (st : ParseState) (line : String) : Except ParseErr ParseState :=
  if strStarts line "//" then .ok st
  else parseFields st (fields line)

/-- Line loop of pkg.ParseMod: the first error aborts the scan. -/
def parseLines (st : ParseState) : List String → Except ParseErr ParseState
  | [] => .ok st
  | l :: ls =>
    match parseLine st l with
    | .error e => .error e
    | .ok st2 => parseLines st2 ls

/-- Embedding of pkg.ParseMod (src/unnamed/part_005) over the list of input
lines. -/
def ParseMod (lines : List String) : Except ParseErr ModFile :=
  match parseLines {} lines with
  | .error e => .error e
  | .ok st => .ok st.mf

/-- Replace-directive resolution of writeModuleFromSource
(src/cmd/sources.go): look the requirement up in the replace map first by
its full coordinate string, then by its bare name; the Bool records
whether a substitution happened. -/
def resolveReplace (replace : List (String × Package)) (p : Package) : Package × Bool :=
  match mapGet replace p.str with
  | some r => (r, true)
  | none =>
    match mapGet replace p.name with
    | some r => (r, true)
    | none => (p, false)

/-- Requirement loop of writeModuleFromSource (src/cmd/sources.go),
projected to the ordered list of coordinates passed to getAndWriteModule
(the Fetcher). Fetches are modelled as succeeding; the existing map is the
visited set of coordinate string-keys. Skips: an entry already in the
visited set (checked on the pre-replacement coordinate), and a replaced
entry whose resulting version is empty. -/
def requiresFetches (replace : List (String × Package)) : List Package → List String → List Package
  | [], _ => []
  | p :: rest, existing =>
    if p.str ∈ existing then requiresFetches replace rest existing
    else
      let q := (resolveReplace replace p).1
      if (resolveReplace replace p).2 ∧ q.version = "" then requiresFetches replace rest existing
      else q :: requiresFetches replace rest (q.str :: existing)

/-- Root-plus-manifest input of one writeModuleFromSource invocation:
the resolved root coordinate and the lines of its go.mod (none when the
manifest failed to open, which is only a warning in the source). -/
structure SourceWalk where
  rootName : String
  rootVersion : String
  modLines : Option (List String)

/-- Embedding of writeModuleFromSource (src/cmd/sources.go), projected to
the ordered list of coordinates passed to the Fetcher. The root itself is
scanned from the given tree, not fetched; its coordinate key enters the
visited set before the requirement loop. A manifest parse error aborts. -/
def writeModuleFromSource (w : SourceWalk) (existing : List String) : Except ParseErr (List Package) :=
  let rootKey := w.rootName ++ "@" ++ w.rootVersion
  match w.modLines with
  | none => .ok []
  | some lines =>
    match ParseMod lines with
    | .error e => .error e
    | .ok mod => .ok (requiresFetches mod.replace mod.requires (rootKey :: existing))

/-- Dependency loop of writeModuleFromBinary (src/cmd/sources.go),
projected to the list of fetched coordinates (fetches modelled as
succeeding): an entry with an empty or devel version is skipped, the
visited set is consulted before and updated after each fetch. -/
def binaryDepFetches : List (String × String) → List String → List Package
  | [], _ => []
  | d :: rest, existing =>
    if d.2 = "" ∨ d.2 = "(devel)" then binaryDepFetches rest existing
    else if (d.1 ++ "@" ++ d.2) ∈ existing then binaryDepFetches rest existing
    else { name := d.1, version := d.2 } :: binaryDepFetches rest ((d.1 ++ "@" ++ d.2) :: existing)

/- License scanner (src/pkg/module.go FindLicenses and
src/unnamed/part_006 licenseChecker / licenseReader). -/

/-- Embedding of the licensecheck.Scan oracle output: overall coverage
percent and the IDs of the matched licenses, in order. -/
structure Coverage where
  percent : ℚ
  matchIDs : List String
deriving Repr, DecidableEq

/-- Embedding of the coverageThreshold constant (src/pkg/module.go). -/
def coverageThreshold : ℚ := 75

/-- Embedding of the unknownLicenseType constant (src/pkg/module.go). -/
def unknownLicenseType : String := "UNKNOWN"

/-- Per-file classification step shared by licenseReader.Close
(src/unnamed/part_006) and the loop body of FindLicenses
(src/pkg/module.go): below the threshold the sentinel is appended, and the
matched IDs are appended in both cases (there is no else branch in the
source). -/
def licenseReaderClose (cov : Coverage) : List String :=
  (if cov.percent < coverageThreshold then [unknownLicenseType] else []) ++ cov.matchIDs

/-- Embedding of the FileNames allow-list (src/unnamed/part_000), from
which the licenseFileNames set is built. -/
def FileNames : List String :=
  ["COPYING", "COPYING.md", "COPYING.markdown", "COPYING.txt",
   "LICENCE", "LICENCE.md", "LICENCE.markdown", "LICENCE.txt",
   "LICENSE", "LICENSE.md", "LICENSE.markdown", "LICENSE.txt",
   "LICENSE-2.0.txt", "LICENCE-2.0.txt", "LICENSE-APACHE", "LICENCE-APACHE",
   "LICENSE-APACHE-2.0.txt", "LICENCE-APACHE-2.0.txt", "LICENSE-MIT",
   "LICENCE-MIT", "LICENSE.MIT", "LICENCE.MIT", "LICENSE.code",
   "LICENCE.code", "LICENSE.docs", "LICENCE.docs", "LICENSE.rst",
   "LICENCE.rst", "MIT-LICENSE", "MIT-LICENCE", "MIT-LICENSE.md",
   "MIT-LICENCE.md", "MIT-LICENSE.markdown", "MIT-LICENCE.markdown",
   "MIT-LICENSE.txt", "MIT-LICENCE.txt", "MIT_LICENSE", "MIT_LICENCE",
   "UNLICENSE", "UNLICENCE"]

/-- Membership in the licenseFileNames set (src/unnamed/part_000). -/
def isLicenseFileName (s : String) : Bool :=
  FileNames.contains s

/-- Path split on the separator, as strings.Split with the slash
separator of the walked file trees. -/
def splitPath (p : String) : List String :=
  splitAtChar '/' p

/-- Embedding of filepath.Base for the clean relative slash paths produced
by fs.WalkDir. -/
def baseName (p : String) : String :=
  (splitPath p).getLast!

/-- Embedding of filepath.Dir for the clean relative slash paths produced
by fs.WalkDir: everything before the last separator, or a dot. -/
def dirName (p : String) : String :=
  let parts := splitPath p
  if parts.length ≤ 1 then "." else joinChar '/' parts.dropLast

/-- Vendored-path test of the scanner sources: some segment of the
directory of the path equals the vendor directory name. -/
def hasVendorSeg (p : String) : Bool :=
  (splitPath (dirName p)).contains "vendor"

/-- Walk loop of FindLicenses (src/pkg/module.go), projected to the list
of file paths on which licensecheck.Scan is invoked. The isVendor flag is
declared outside the closure in the source, so it is threaded through the
whole walk and is never reset once set. -/
def findLicensesScanned : Bool → List String → List String
  | _, [] => []
  | isVendor, p :: rest =>
    if isLicenseFileName (baseName p) = false then findLicensesScanned isVendor rest
    else
      let isVendor2 := isVendor || hasVendorSeg p
      if isVendor2 then findLicensesScanned isVendor2 rest
      else p :: findLicensesScanned isVendor2 rest

/-- Embedding of FindLicenses (src/pkg/module.go) given the oracle output
per path: the same walk as findLicensesScanned, appending the per-file
classification results of the scanned files. -/
def FindLicenses (scan : String → Coverage) (paths : List String) : List String :=
  (findLicensesScanned false paths).flatMap (fun p => licenseReaderClose (scan p))

/-- Embedding of the filtering of licenseChecker (src/unnamed/part_006):
the returned reader is a scanning tee (so the oracle runs on close)
exactly when the base filename is in the allow-list and the path has no
vendor directory segment; the isVendor variable there is local to the
call, one per file. -/
def licenseCheckerWraps (p : String) : Bool :=
  isLicenseFileName (baseName p) && !hasVendorSeg p

/- Output-writer model (src/cmd/sources.go getWriter, writeModule,
getAndWriteModule). -/

/-- Embedding of cleanFilename (src/cmd/sources.go). -/
def cleanFilename (module version ext : String) : String :=
  let cleanModule := replaceSlash module
  let v := if version ≠ "" then "@" ++ version else ""
  cleanModule ++ v ++ "." ++ ext

/-- Pre-existing output files on disk: path to size of the file, none when
the path does not exist. -/
structure OutState where
  files : String → Option Nat

/-- Writer returned by getWriter: a discarding writer or a freshly created
file. -/
inductive WriterKind where
  | discard
  | file (path : String)
deriving Repr, DecidableEq

/-- Embedding of getWriter (src/cmd/sources.go): with no output path the
writer discards; with a pre-existing file of non-zero size the writer also
discards (the file is left as is); otherwise the file is created. The
returned filename is relative to the output path. -/
def getWriter (outpath pfx module version : String) (st : OutState) : WriterKind × String :=
  if outpath = "" then (.discard, "")
  else
    let filename :=
      if pfx ≠ "" then pfx ++ "/" ++ cleanFilename module version "zip"
      else cleanFilename module version "zip"
    let outFile := outpath ++ "/" ++ filename
    match st.files outFile with
    | some sz => if sz ≠ 0 then (.discard, filename) else (.file outFile, filename)
    | none => (.file outFile, filename)

/-- Observable operations of the fetch-and-write path, in order. -/
inductive Op where
  | fetch (module version : String)
  | createFile (path : String)
  | scanTree (module version : String)
deriving Repr, DecidableEq

/-- Embedding of writeModule (src/cmd/sources.go) as its operation trace:
the writer is obtained, a file is created only when the writer is not a
discard, and WriteToZip always walks the whole tree through the scanning
tee regardless of the writer kind. -/
def writeModule (outpath pfx name version : String) (st : OutState) : List Op :=
  let w := getWriter outpath pfx name version st
  (match w.1 with
   | .discard => []
   | .file path => [.createFile path]) ++ [.scanTree name version]

/-- Embedding of getAndWriteModule (src/cmd/sources.go) as its operation
trace: pkg.GetModule is invoked first, unconditionally, then writeModule
runs. -/
def getAndWriteModule (outpath pfx name version : String) (st : OutState) : List Op :=
  .fetch name version :: writeModule outpath pfx name version st

/- Module fetcher (src/pkg/module.go GetModule / GetVersions). -/

/-- Response of one http.Get: status code and the body split into lines
by the bufio scanner. -/
structure HttpResp where
  statusCode : Nat
  bodyLines : List String

/-- Environment oracles of GetModule: the transport (none is a transport
error), the GOPATH variable, and the local cache probes. -/
structure SysEnv where
  http : String → Option HttpResp
  gopath : String
  statIsDir : String → Bool
  openGoModOk : String → Bool

/-- Embedding of pkg.GetVersions (src/pkg/module.go): the body lines of
the version-list endpoint; the status code is not checked there. -/
def GetVersions (module proxy : String) (env : SysEnv) : Except String (List String) :=
  match env.http (proxy ++ "/" ++ module ++ "/@v/list") with
  | none => .error "http get failed"
  | some r => .ok r.bodyLines

/-- Outcome of GetModule: a module source, an error value, or a Go runtime
panic. -/
inductive FetchResult where
  | okLocal (path : String)
  | okProxyZip
  | error (msg : String)
  | panicked
deriving Repr, DecidableEq

/-- Version resolution step of GetModule: with an empty version the list
endpoint is queried and the last element taken by index without a guard,
so an empty list is the out-of-range panic. -/
inductive VRes where
  | v (s : String)
  | errFetch
  | panicked
deriving Repr, DecidableEq

/-- Resolution of the requested version in pkg.GetModule. -/
def resolveLatest (module version proxy : String) (env : SysEnv) : VRes :=
  if version = "" then
    match GetVersions module proxy env with
    | .error _ => .errFetch
    | .ok versions => if versions = [] then .panicked else .v versions.getLast!
  else .v version

/-- Embedding of pkg.GetModule (src/pkg/module.go, the variant with the
force flag): module-name check, version resolution, local GOPATH cache
probe guarded by force and by the presence of go.mod, then the proxy zip
endpoint with its status check. -/
def GetModule (module version proxy : String) (force : Bool) (env : SysEnv) : FetchResult :=
  if containsChar module '.' = false then
    .error ("module must be a valid go module, does not support built in modules " ++ module)
  else
    match resolveLatest module version proxy env with
    | .errFetch => .error "failed to get versions"
    | .panicked => .panicked
    | .v ver =>
      let modPath := env.gopath ++ "/pkg/mod/" ++ module ++ "@" ++ ver
      if force = false ∧ env.gopath ≠ "" ∧ env.statIsDir modPath = true ∧ env.openGoModOk modPath = true then
        .okLocal modPath
      else
        match env.http (proxy ++ "/" ++ lowerS module ++ "/@v/" ++ ver ++ ".zip") with
        | none => .error "http get failed"
        | some r => if r.statusCode ≠ 200 then .error "failed to get module zip" else .okProxyZip

/- Build-flag version derivation (src/cmd/sources.go
parseVersionFromBuildFlags and knownBuildFlagPatterns), embedded as
explicit matchers for the two fixed regular expressions. -/

/-- Word character class of the patterns: letters, digits, underscore. -/
def isWordChar (c : Char) : Bool :=
  c.isAlphanum || c = '_'

/-- Leading digit run, at least one digit, with the remaining characters. -/
def takeDigits (cs : List Char) : Option (List Char × List Char) :=
  let ds := cs.takeWhile Char.isDigit
  if ds = [] then none else some (ds, cs.drop ds.length)

/-- Number tail of the version capture: three digit runs separated by one
arbitrary character each (the unescaped dots of the pattern), then a
greedy run of word characters and hyphens. -/
def versionTail (cs : List Char) : Option (List Char × List Char) :=
  match takeDigits cs with
  | none => none
  | some (d1, r1) =>
    match r1 with
    | [] => none
    | c1 :: r2 =>
      match takeDigits r2 with
      | none => none
      | some (d2, r3) =>
        match r3 with
        | [] => none
        | c2 :: r4 =>
          match takeDigits r4 with
          | none => none
          | some (d3, r5) =>
            let w := r5.takeWhile (fun c => isWordChar c || c = '-')
            some (d1 ++ [c1] ++ d2 ++ [c2] ++ d3 ++ w, r5.drop w.length)

/-- Version capture of the patterns: an optional leading v then the number
tail. -/
def versionCapture (cs : List Char) : Option (List Char × List Char) :=
  match cs with
  | 'v' :: rest =>
    (match versionTail rest with
     | some (cap, r) => some ('v' :: cap, r)
     | none => none)
  | _ => versionTail cs

/-- Suffixes just after each slash of the leading non-space run, rightmost
first: the candidate resumption points of the greedy starred path-segment
group. -/
def slashSuffixesAux : List Char → List (List Char)
  | [] => []
  | c :: rest =>
    if c.isWhitespace then []
    else if c = '/' then slashSuffixesAux rest ++ [rest]
    else slashSuffixesAux rest

/-- Resumption points of the starred path-segment group, greedy order: a
slash must be preceded by at least one non-space character, and the empty
iteration comes last. -/
def starResume (cs : List Char) : List (List Char) :=
  (match cs with
   | c :: rest => if c.isWhitespace then [] else slashSuffixesAux rest
   | [] => []) ++ [cs]

/-- First resumption point at which the version capture succeeds. -/
def firstVersion : List (List Char) → Option (List Char)
  | [] => none
  | c :: rest =>
    match versionCapture c with
    | some (cap, _) => some cap
    | none => firstVersion rest

/-- Literal consumption helper of the matchers. -/
def dropLit (lit : List Char) (cs : List Char) : Option (List Char) :=
  if lit.isPrefixOf cs then some (cs.drop lit.length) else none

/-- Resumption points of an optional literal group, greedy order:
consumed alternatives first, the empty match last. -/
def optLit (alts : List (List Char)) (cs : List Char) : List (List Char) :=
  (alts.filterMap (fun a => dropLit a cs)) ++ [cs]

/-- Match attempt of the first knownBuildFlagPatterns regex at one
position: a dot, an optional git marker, an optional build marker, a
version key with the equals sign, the starred path segments, then the
named version capture. -/
def matchP1At (cs : List Char) : Option (List Char) :=
  match cs with
  | '.' :: rest =>
    (optLit [['g', 'i', 't'], ['G', 'i', 't']] rest).findSome? fun r1 =>
      (optLit [['b', 'u', 'i', 'l', 'd'], ['B', 'u', 'i', 'l', 'd']] r1).findSome? fun r2 =>
        match dropLit ("version=".data) r2 with
        | some r3 => firstVersion (starResume r3)
        | none =>
          match dropLit ("Version=".data) r2 with
          | some r3 => firstVersion (starResume r3)
          | none => none
  | _ => none

/-- Match attempt of the second knownBuildFlagPatterns regex at one
position: a dot, a tag key with the equals sign, the starred path
segments, then the named version capture. -/
def matchP2At (cs : List Char) : Option (List Char) :=
  match cs with
  | '.' :: rest =>
    (match dropLit ("tag=".data) rest with
     | some r3 => firstVersion (starResume r3)
     | none =>
       match dropLit ("Tag=".data) rest with
       | some r3 => firstVersion (starResume r3)
       | none => none)
  | _ => none

/-- Leftmost search of a positional matcher over the string. -/
def searchLeftmost (m : List Char → Option (List Char)) : List Char → Option (List Char)
  | [] => none
  | c :: rest =>
    match m (c :: rest) with
    | some cap => some cap
    | none => searchLeftmost m rest

/-- Named version capture of the first pattern on a string. -/
def matchPattern1 (s : String) : Option String :=
  (searchLeftmost matchP1At s.data).map String.mk

/-- Named version capture of the second pattern on a string. -/
def matchPattern2 (s : String) : Option String :=
  (searchLeftmost matchP2At s.data).map String.mk

/-- First -ldflags entry of the build settings, as in the settings loop of
parseVersionFromBuildFlags. -/
def findLdflags : List (String × String) → Option String
  | [] => none
  | s :: rest => if s.1 = "-ldflags" then some s.2 else findLdflags rest

/-- Pattern loop of parseVersionFromBuildFlags: the first pattern with a
version capture wins; the capture is prefixed with v when absent; the
dead empty-components branch falls through to the next pattern keeping
the already-computed value, as in the source. -/
def tryPatterns (fullVersion : String) : List (String → Option String) → String → String
  | [], _ => fullVersion
  | pat :: rest, ldflags =>
    match pat ldflags with
    | none => tryPatterns fullVersion rest ldflags
    | some v =>
      let fv := if strStarts v "v" then v else "v" ++ v
      if (splitAtChar '.' v).length = 0 then tryPatterns fv rest ldflags
      else fv

/-- Embedding of parseVersionFromBuildFlags (src/cmd/sources.go): only the
first -ldflags setting is considered; an empty value, a missing setting or
no pattern match give the empty string. -/
def parseVersionFromBuildFlags (settings : List (String × String)) : String :=
  match findLdflags settings with
  | none => ""
  | some ldflags =>
    if ldflags = "" then ""
    else tryPatterns "" [matchPattern1, matchPattern2] ldflags

/-- Embedded build information of a binary, as read by buildinfo.Read:
main module path and version, build settings, dependency list. -/
structure BuildInfo where
  mainPath : String
  mainVersion : String
  settings : List (String × String)
  deps : List (String × String)

/-- Embedding of writeModuleFromBinary (src/cmd/sources.go), projected to
the ordered list of fetched coordinates with fetches modelled as
succeeding: an empty or devel main version is re-derived from the build
flags; the main module is fetched and recorded only under a non-empty,
non-devel version, entering the visited set before the dependency loop. -/
def writeModuleFromBinary (bi : BuildInfo) (existing : List String) : List Package :=
  let version0 := bi.mainVersion
  let version :=
    if version0 = "" ∨ version0 = "(devel)" then parseVersionFromBuildFlags bi.settings
    else version0
  if version ≠ "" ∧ version ≠ "(devel)" then
    { name := bi.mainPath, version := version }
      :: binaryDepFetches bi.deps ((bi.mainPath ++ "@" ++ version) :: existing)
  else
    binaryDepFetches bi.deps existing

/- Concrete inputs used by the claim theorems. -/

/-- Manifest with a versionless replace directive for a required module. -/
def c1Manifest : List String :=
  ["module m", "require github.com/x/y v1.2.3", "replace github.com/x/y => ./local"]

/-- Manifest whose replace directive rewrites one requirement onto the
coordinate of another requirement. -/
def c2Manifest : List String :=
  ["module m", "require github.com/a/a v1.0.0", "require github.com/b/b v1.0.0",
   "replace github.com/b/b v1.0.0 => github.com/a/a v1.0.0"]

/-- Fetch list of a walker result, empty on a parse error. -/
def fetchedList (r : Except ParseErr (List Package)) : List Package :=
  match r with
  | .ok l => l
  | .error _ => []

/-- Well-formed manifest exercising every directive form. -/
def goodManifest : List String :=
  ["module m", "go 1.20", "require (", "github.com/x/y v1.2.3", ")",
   "replace github.com/x/y v1.2.3 => github.com/a/b v1.0.0", "retract v1.0.0"]

/-- Record parsed from the well-formed manifest. -/
def goodManifestRecord : ModFile :=
  { name := "m", goVersion := "1.20",
    requires := [{ name := "github.com/x/y", version := "v1.2.3" }],
    replace := [("github.com/x/y@v1.2.3", { name := "github.com/a/b", version := "v1.0.0" })] }

/-- Disk state with a pre-existing non-empty output file for the
coordinate github.com/x/y@v1.0.0 with no path piece. -/
def c5State : OutState :=
  { files := fun p => if p = "/out/github.com_x_y@v1.0.0.zip" then some 10 else none }

/-- Disk state with a pre-existing non-empty output file for the same
coordinate under a path piece. -/
def c5StateB : OutState :=
  { files := fun p => if p = "/out/sub/github.com_x_y@v1.0.0.zip" then some 7 else none }

/-- Environment whose version-list endpoint answers with an empty body. -/
def c9Env : SysEnv :=
  { http := fun u =>
      if u = "https://proxy/github.com/x/y/@v/list" then some { statusCode := 200, bodyLines := [] }
      else none,
    gopath := "", statIsDir := fun _ => false, openGoModOk := fun _ => false }

/-- Build settings carrying the scenario ldflags value. -/
def c8Settings : List (String × String) :=
  [("-ldflags", "-w -s -X main.version=1.4.0")]

/- Helper lemmas. -/

/-- Line loop of the manifest parser over an appended list: the second
part runs in the state left by the first, and an error short-circuits. -/
theorem parseLines_append (xs ys : List String) :
    ∀ st, parseLines st (xs ++ ys)
      = match parseLines st xs with
        | .error e => .error e
        | .ok st2 => parseLines st2 ys := by
  induction xs with
  | nil => intro st; rfl
  | cons x xs ih =>
    intro st
    simp only [List.cons_append, parseLines]
    cases parseLine st x with
    | error e => rfl
    | ok st2 => exact ih st2

/-- Replace resolution that reports no substitution returns the
requirement unchanged. -/
theorem resolveReplace_of_not_replaced (replace : List (String × Package)) (p : Package)
    (h : (resolveReplace replace p).2 = false) : (resolveReplace replace p).1 = p := by
  unfold resolveReplace at *
  cases hg : mapGet replace p.str with
  | some r => simp [hg] at h
  | none =>
    simp only [hg] at h ⊢
    cases hn : mapGet replace p.name with
    | some r => simp [hn] at h
    | none => simp only [hn]

/-- Visited-set invariant of the requirement loop when no requirement is
rewritten by a replace directive: the emitted coordinate keys are distinct
and none of them was already in the visited set. -/
theorem requiresFetches_visited (replace : List (String × Package)) :
    ∀ (reqs : List Package) (existing : List String),
      (∀ p ∈ reqs, (resolveReplace replace p).2 = false) →
      ((requiresFetches replace reqs existing).map Package.str).Nodup
      ∧ ∀ s ∈ (requiresFetches replace reqs existing).map Package.str, s ∉ existing := by
  intro reqs
  induction reqs with
  | nil => intro existing _; simp [requiresFetches]
  | cons p rest ih =>
    intro existing h
    have hp : (resolveReplace replace p).2 = false := h p (List.mem_cons_self p rest)
    have hrest : ∀ q ∈ rest, (resolveReplace replace q).2 = false :=
      fun q hq => h q (List.mem_cons_of_mem p hq)
    have hq1 : (resolveReplace replace p).1 = p := resolveReplace_of_not_replaced replace p hp
    by_cases hmem : p.str ∈ existing
    · simp only [requiresFetches, if_pos hmem]
      exact ih existing hrest
    · simp only [requiresFetches, if_neg hmem, hq1, hp, Bool.false_eq_true, false_and, if_false]
      obtain ⟨hnd, hnin⟩ := ih (p.str :: existing) hrest
      refine ⟨?_, ?_⟩
      · simp only [List.map_cons, List.nodup_cons]
        exact ⟨fun hmem2 => (hnin _ hmem2) (List.mem_cons_self _ _), hnd⟩
      · intro s hs
        simp only [List.map_cons, List.mem_cons] at hs
        rcases hs with hs | hs
        · rw [hs]; exact hmem
        · intro hins
          exact (hnin s hs) (List.mem_cons_of_mem _ hins)

/-- Visited-set invariant of the binary dependency loop: the emitted
coordinate keys are distinct and none was already visited. -/
theorem binaryDepFetches_visited :
    ∀ (deps : List (String × String)) (existing : List String),
      ((binaryDepFetches deps existing).map Package.str).Nodup
      ∧ ∀ s ∈ (binaryDepFetches deps existing).map Package.str, s ∉ existing := by
  intro deps
  induction deps with
  | nil => intro existing; simp [binaryDepFetches]
  | cons d rest ih =>
    intro existing
    by_cases h1 : d.2 = "" ∨ d.2 = "(devel)"
    · simp only [binaryDepFetches, if_pos h1]
      exact ih existing
    · simp only [binaryDepFetches, if_neg h1]
      by_cases h2 : (d.1 ++ "@" ++ d.2) ∈ existing
      · simp only [if_pos h2]
        exact ih existing
      · simp only [if_neg h2]
        obtain ⟨hnd, hnin⟩ := ih ((d.1 ++ "@" ++ d.2) :: existing)
        have hstr : Package.str { name := d.1, version := d.2 } = d.1 ++ "@" ++ d.2 := rfl
        refine ⟨?_, ?_⟩
        · simp only [List.map_cons, List.nodup_cons, hstr]
          exact ⟨fun hmem2 => (hnin _ hmem2) (List.mem_cons_self _ _), hnd⟩
        · intro s hs
          simp only [List.map_cons, List.mem_cons, hstr] at hs
          rcases hs with hs | hs
          · rw [hs]; exact h2
          · intro hins
            exact (hnin s hs) (List.mem_cons_of_mem _ hins)

/-- Accumulator form of the lockfile loop as a filterMap. -/
theorem parseSumLoop_eq (ls : List String) :
    ∀ acc, parseSumLoop acc ls = acc ++ ls.filterMap sumEntry := by
  induction ls with
  | nil => intro acc; simp [parseSumLoop]
  | cons l ls ih =>
    intro acc
    rw [parseSumLoop, ih]
    cases h : sumEntry l <;> simp [List.filterMap_cons, h]

/- Claim theorems. -/

/-- C1: the claim states that a requirement whose coordinate is overridden
by a versionless replace directive is never passed to the fetcher, the
walker finding the directive by full coordinate string or bare name. On
the source, ParseMod stores the directive under the key of the old
coordinate with an empty version, which carries a trailing at-sign, so it
matches neither the full-coordinate lookup key nor the bare-name lookup
key of the walker, and the requirement is fetched: processing the
scenario manifest passes exactly one coordinate to the fetcher instead of
zero. -/
theorem C1_versionless_replace_still_fetched :
    ParseMod c1Manifest =
      .ok { name := "m", goVersion := "",
            requires := [{ name := "github.com/x/y", version := "v1.2.3" }],
            replace := [("github.com/x/y@", { name := "./local", version := "" })] }
    ∧ writeModuleFromSource { rootName := "m", rootVersion := "", modLines := some c1Manifest } []
        = .ok [{ name := "github.com/x/y", version := "v1.2.3" }]
    ∧ (fetchedList (writeModuleFromSource { rootName := "m", rootVersion := "", modLines := some c1Manifest } [])).length = 1 :=
  ⟨rfl, rfl, rfl⟩

/-- C2 counterexample: within a single traversal of the scenario manifest,
the coordinate of the first requirement is fetched twice, because the
second requirement is rewritten onto it by a replace directive after the
visited set was consulted on the pre-replacement coordinate only. -/
theorem C2_counterexample :
    writeModuleFromSource { rootName := "m", rootVersion := "v1", modLines := some c2Manifest } []
      = .ok [{ name := "github.com/a/a", version := "v1.0.0" },
             { name := "github.com/a/a", version := "v1.0.0" }]
    ∧ ((fetchedList (writeModuleFromSource
          { rootName := "m", rootVersion := "v1", modLines := some c2Manifest } [])).map
            Package.str).count "github.com/a/a@v1.0.0" = 2 :=
  ⟨rfl, by decide⟩

/-- C2 amended: the visited set guarantees at-most-once fetch-and-scan per
coordinate in the binary walk unconditionally, and in the source-manifest
walk for every traversal in which no requirement is rewritten by a replace
directive; the visited set is consulted on the pre-replacement coordinate,
so a replace target equal to an already-fetched coordinate is fetched
again. -/
theorem C2_visited_at_most_once
    (replace : List (String × Package)) (reqs : List Package) (existing : List String)
    (deps : List (String × String)) (existing2 : List String)
    (hnr : ∀ p ∈ reqs, (resolveReplace replace p).2 = false) :
    ((requiresFetches replace reqs existing).map Package.str).Nodup
    ∧ ((binaryDepFetches deps existing2).map Package.str).Nodup :=
  ⟨(requiresFetches_visited replace reqs existing hnr).1,
   (binaryDepFetches_visited deps existing2).1⟩

/-- C2 witness: the amended theorem applied to a duplicated requirement
and a duplicated dependency entry. -/
theorem C2_visited_at_most_once_witness :
    ((requiresFetches []
        [{ name := "github.com/x/y", version := "v1.2.3" },
         { name := "github.com/x/y", version := "v1.2.3" }] []).map Package.str).Nodup
    ∧ ((binaryDepFetches [("a.com/x", "v1"), ("a.com/x", "v1")] []).map Package.str).Nodup :=
  C2_visited_at_most_once []
    [{ name := "github.com/x/y", version := "v1.2.3" },
     { name := "github.com/x/y", version := "v1.2.3" }] []
    [("a.com/x", "v1"), ("a.com/x", "v1")] [] (by decide)

/-- C3 counterexample: on an oracle output below the threshold that also
carries a match, the per-file result is the sentinel followed by the
matched identifier, not the sentinel alone as the claim states. -/
theorem C3_counterexample :
    licenseReaderClose { percent := 50, matchIDs := ["MIT"] } = ["UNKNOWN", "MIT"]
    ∧ licenseReaderClose { percent := 50, matchIDs := ["MIT"] } ≠ [unknownLicenseType] := by
  constructor
  · show (if (50 : ℚ) < coverageThreshold then [unknownLicenseType] else []) ++ ["MIT"] = ["UNKNOWN", "MIT"]
    norm_num [coverageThreshold, unknownLicenseType]
  · show (if (50 : ℚ) < coverageThreshold then [unknownLicenseType] else []) ++ ["MIT"] ≠ [unknownLicenseType]
    norm_num [coverageThreshold, unknownLicenseType]

/-- C3 amended: at or above the threshold the per-file result is exactly
the matched identifier list of the oracle; below the threshold it is the
sentinel unknown identifier followed by the matched identifier list. The
oracle output is the only input of the per-file step. -/
theorem C3_per_file_result (cov : Coverage) :
    (coverageThreshold ≤ cov.percent → licenseReaderClose cov = cov.matchIDs)
    ∧ (cov.percent < coverageThreshold →
        licenseReaderClose cov = unknownLicenseType :: cov.matchIDs) := by
  constructor
  · intro h
    simp [licenseReaderClose, not_lt.mpr h]
  · intro h
    simp [licenseReaderClose, h]

/-- C3 witness: the amended theorem applied at coverage 80 and at
coverage 50. -/
theorem C3_per_file_result_witness :
    licenseReaderClose { percent := 80, matchIDs := ["MIT"] } = ["MIT"]
    ∧ licenseReaderClose { percent := 50, matchIDs := ["MIT"] }
        = unknownLicenseType :: ["MIT"] :=
  ⟨(C3_per_file_result { percent := 80, matchIDs := ["MIT"] }).1 (by norm_num [coverageThreshold]),
   (C3_per_file_result { percent := 50, matchIDs := ["MIT"] }).2 (by norm_num [coverageThreshold])⟩

/-- C4: the claim states the oracle runs on a file exactly when its base
filename is in the allow-list and its own path has no vendor segment,
independent of earlier files. In FindLicenses the vendor flag is declared
outside the walk closure, so one vendored license file suppresses the
classification of every later license file: with the vendored file first,
nothing is scanned; with it last, the non-vendored file is scanned. The
licenseChecker used in the archive path tests each file locally, as the
claim states. -/
theorem C4_vendor_flag_latches :
    findLicensesScanned false ["a/vendor/LICENSE", "b/LICENSE"] = []
    ∧ findLicensesScanned false ["b/LICENSE", "a/vendor/LICENSE"] = ["b/LICENSE"]
    ∧ licenseCheckerWraps "b/LICENSE" = true
    ∧ licenseCheckerWraps "a/vendor/LICENSE" = false
    ∧ FindLicenses (fun _ => { percent := 100, matchIDs := ["MIT"] })
        ["a/vendor/LICENSE", "b/LICENSE"] = [] :=
  ⟨rfl, rfl, rfl, rfl, rfl⟩

/-- C5 counterexample: with a pre-existing non-empty output file for the
coordinate, the operation trace of getAndWriteModule still contains the
fetch and the tree scan; only the file creation is absent. The claim
states the fetch and the scan are skipped. -/
theorem C5_counterexample :
    getAndWriteModule "/out" "" "github.com/x/y" "v1.0.0" c5State
      = [.fetch "github.com/x/y" "v1.0.0", .scanTree "github.com/x/y" "v1.0.0"] :=
  rfl

/-- C5 amended: a pre-existing non-zero-size output file for the
coordinate is left untouched, with no file creation or truncation in the
trace, but the coordinate is still fetched and its tree is still scanned;
only the write is suppressed. -/
theorem C5_preexisting_file (outpath pfx name version : String) (st : OutState) (sz : Nat)
    (hout : outpath ≠ "")
    (hfile : st.files (outpath ++ "/" ++
        (if pfx ≠ "" then pfx ++ "/" ++ cleanFilename name version "zip"
         else cleanFilename name version "zip")) = some sz)
    (hsz : sz ≠ 0) :
    getAndWriteModule outpath pfx name version st
      = [.fetch name version, .scanTree name version] := by
  have hfile2 : st.files (outpath ++ "/" ++
      (if pfx = "" then cleanFilename name version "zip"
       else pfx ++ "/" ++ cleanFilename name version "zip")) = some sz := by
    by_cases hp : pfx = "" <;> simpa [hp] using hfile
  simp [getAndWriteModule, writeModule, getWriter, hout, hfile2, hsz]

/-- C5 witness: the amended theorem applied to the pre-existing file under
a path piece. -/
theorem C5_preexisting_file_witness :
    getAndWriteModule "/out" "sub" "github.com/x/y" "v1.0.0" c5StateB
      = [.fetch "github.com/x/y" "v1.0.0", .scanTree "github.com/x/y" "v1.0.0"] :=
  C5_preexisting_file "/out" "sub" "github.com/x/y" "v1.0.0" c5StateB 7
    (by decide) rfl (by decide)

/-- C6: the manifest parser errors on a duplicate module declaration, a
duplicate go declaration, a block directive opened while the same block is
open, a closing paren outside any block, and an unrecognized top-level
directive outside any block; a well-formed manifest with every directive
form parses to its record. -/
theorem C6_parser_rejects_malformed :
    (∀ (l1 l2 : String) (rest : List String) (n1 n2 : String),
        strStarts l1 "//" = false → strStarts l2 "//" = false →
        fields l1 = ["module", n1] → fields l2 = ["module", n2] → n1 ≠ "" →
        ParseMod (l1 :: l2 :: rest) = .error (.malformed "invalid go.mod: multiple module lines"))
    ∧ (∀ (l1 l2 : String) (rest : List String) (v1 v2 : String),
        strStarts l1 "//" = false → strStarts l2 "//" = false →
        fields l1 = ["go", v1] → fields l2 = ["go", v2] → v1 ≠ "" →
        ParseMod (l1 :: l2 :: rest) = .error (.malformed "invalid go.mod: multiple go lines"))
    ∧ (∀ (l1 l2 : String) (rest r2 : List String),
        strStarts l1 "//" = false → strStarts l2 "//" = false →
        fields l1 = ["require", "("] → fields l2 = "require" :: r2 →
        ParseMod (l1 :: l2 :: rest) = .error (.malformed "invalid go.mod: nested require blocks"))
    ∧ (∀ (l : String) (rest : List String),
        strStarts l "//" = false → fields l = [")"] →
        ParseMod (l :: rest) = .error (.malformed "invalid go.mod: unexpected closing paren"))
    ∧ (∀ (l : String) (rest : List String) (t : String) (ts : List String),
        strStarts l "//" = false → fields l = t :: ts →
        t ≠ "module" → t ≠ "go" → t ≠ "require" → t ≠ "replace" → t ≠ "retract" → t ≠ ")" →
        ParseMod (l :: rest) = .error (.malformed "invalid go.mod: unexpected line"))
    ∧ ParseMod goodManifest = .ok goodManifestRecord := by
  refine ⟨?_, ?_, ?_, ?_, ?_, rfl⟩
  · intro l1 l2 rest n1 n2 hc1 hc2 hf1 hf2 hn
    simp [ParseMod, parseLines, parseLine, parseFields, hc1, hc2, hf1, hf2, hn]
  · intro l1 l2 rest v1 v2 hc1 hc2 hf1 hf2 hn
    simp [ParseMod, parseLines, parseLine, parseFields, hc1, hc2, hf1, hf2, hn]
  · intro l1 l2 rest r2 hc1 hc2 hf1 hf2
    simp [ParseMod, parseLines, parseLine, parseFields, hc1, hc2, hf1, hf2]
  · intro l rest hc hf
    simp [ParseMod, parseLines, parseLine, parseFields, hc, hf]
  · intro l rest t ts hc hf h1 h2 h3 h4 h5 h6
    simp [ParseMod, parseLines, parseLine, parseFields, hc, hf, h1, h2, h3, h4, h5, h6]

/-- C6 witness: the error cases applied to concrete manifests. -/
theorem C6_parser_rejects_malformed_witness :
    ParseMod ["module a", "module b"] = .error (.malformed "invalid go.mod: multiple module lines")
    ∧ ParseMod ["go 1.20", "go 1.21"] = .error (.malformed "invalid go.mod: multiple go lines")
    ∧ ParseMod ["require (", "require ("] = .error (.malformed "invalid go.mod: nested require blocks")
    ∧ ParseMod [")"] = .error (.malformed "invalid go.mod: unexpected closing paren")
    ∧ ParseMod ["exclude github.com/x v1"] = .error (.malformed "invalid go.mod: unexpected line") :=
  ⟨C6_parser_rejects_malformed.1 "module a" "module b" [] "a" "b"
      (by decide) (by decide) (by decide) (by decide) (by decide),
   C6_parser_rejects_malformed.2.1 "go 1.20" "go 1.21" [] "1.20" "1.21"
      (by decide) (by decide) (by decide) (by decide) (by decide),
   C6_parser_rejects_malformed.2.2.1 "require (" "require (" [] ["("]
      (by decide) (by decide) (by decide) (by decide),
   C6_parser_rejects_malformed.2.2.2.1 ")" [] (by decide) (by decide),
   C6_parser_rejects_malformed.2.2.2.2.1 "exclude github.com/x v1" [] "exclude"
      ["github.com/x", "v1"] (by decide) (by decide)
      (by decide) (by decide) (by decide) (by decide) (by decide) (by decide)⟩

/-- C7: the lockfile parser is the per-line filterMap of its entry
function; a line with exactly three whitespace fields whose second field
does not end in the manifest-hash suffix yields exactly its entry, a line
with three fields whose second field ends in the suffix yields none, a
line without exactly three fields yields none; the two scenario lines
behave as stated. -/
theorem C7_lock_line_shapes :
    (∀ lines, ParseSum lines = lines.filterMap sumEntry)
    ∧ (∀ (line a b c : String), fields line = [a, b, c] → strEnds b "go.mod" = false →
        sumEntry line = some { name := a, version := b })
    ∧ (∀ (line a b c : String), fields line = [a, b, c] → strEnds b "go.mod" = true →
        sumEntry line = none)
    ∧ (∀ line : String, (fields line).length ≠ 3 → sumEntry line = none)
    ∧ ParseSum ["github.com/x/y v1.2.3/go.mod h1:abc="] = []
    ∧ ParseSum ["github.com/x/y v1.2.3 h1:xyz="]
        = [{ name := "github.com/x/y", version := "v1.2.3" }] := by
  refine ⟨?_, ?_, ?_, ?_, rfl, rfl⟩
  · intro lines
    show parseSumLoop [] lines = _
    rw [parseSumLoop_eq]
    simp
  · intro line a b c hf hs
    unfold sumEntry
    rw [hf]
    simp [hs]
  · intro line a b c hf hs
    unfold sumEntry
    rw [hf]
    simp [hs]
  · intro line hlen
    unfold sumEntry
    cases hf : fields line with
    | nil => rfl
    | cons a t1 =>
      cases t1 with
      | nil => rfl
      | cons b t2 =>
        cases t2 with
        | nil => rfl
        | cons c t3 =>
          cases t3 with
          | nil => exact absurd (by rw [hf]; rfl) hlen
          | cons d t4 => rfl

/-- C7 witness: the kept-line case applied to the scenario line. -/
theorem C7_lock_line_shapes_witness :
    sumEntry "github.com/x/y v1.2.3 h1:xyz="
      = some { name := "github.com/x/y", version := "v1.2.3" } :=
  C7_lock_line_shapes.2.1 "github.com/x/y v1.2.3 h1:xyz=" "github.com/x/y" "v1.2.3" "h1:xyz="
    (by decide) (by decide)

/-- C8: for a devel main-module version with the scenario ldflags value,
the derived version is v1.4.0 (first matching pattern, v-prefixed) and the
main module heads the fetch list under that version; when no pattern
matches, the main module is omitted and the walk proceeds over the
dependencies with no error. -/
theorem C8_devel_version_from_ldflags (bi : BuildInfo)
    (hver : bi.mainVersion = "(devel)")
    (hld : findLdflags bi.settings = some "-w -s -X main.version=1.4.0") :
    parseVersionFromBuildFlags bi.settings = "v1.4.0"
    ∧ writeModuleFromBinary bi []
        = { name := bi.mainPath, version := "v1.4.0" }
          :: binaryDepFetches bi.deps [bi.mainPath ++ "@" ++ "v1.4.0"]
    ∧ (∀ bi2 : BuildInfo, bi2.mainVersion = "(devel)" →
        parseVersionFromBuildFlags bi2.settings = "" →
        writeModuleFromBinary bi2 [] = binaryDepFetches bi2.deps []) := by
  have h1 : parseVersionFromBuildFlags bi.settings = "v1.4.0" := by
    unfold parseVersionFromBuildFlags
    rw [hld]
    rfl
  refine ⟨h1, ?_, ?_⟩
  · unfold writeModuleFromBinary
    rw [hver]
    simp [h1]
  · intro bi2 hv2 hp2
    unfold writeModuleFromBinary
    rw [hv2]
    simp [hp2]

/-- C8 witness: the derivation applied to the concrete scenario
settings. -/
theorem C8_devel_version_from_ldflags_witness :
    parseVersionFromBuildFlags c8Settings = "v1.4.0" :=
  (C8_devel_version_from_ldflags
    { mainPath := "github.com/me/app", mainVersion := "(devel)",
      settings := c8Settings, deps := [("dep.com/a", "v1.0.0")] } rfl rfl).1

/-- C9: GetModule with an empty version takes the last element of the
version-list response by index without an emptiness guard, so a response
with an empty body makes it panic with an out-of-range index instead of
returning an error. -/
theorem C9_empty_version_list_panics (module proxy : String) (force : Bool) (env : SysEnv)
    (resp : HttpResp)
    (hdot : containsChar module '.' = true)
    (hresp : env.http (proxy ++ "/" ++ module ++ "/@v/list") = some resp)
    (hbody : resp.bodyLines = []) :
    GetModule module "" proxy force env = .panicked := by
  unfold GetModule resolveLatest GetVersions
  simp [hdot, hresp, hbody]

/-- C9 witness: the panic on the concrete environment whose list endpoint
answers with an empty body. -/
theorem C9_empty_version_list_panics_witness :
    GetModule "github.com/x/y" "" "https://proxy" false c9Env = .panicked :=
  C9_empty_version_list_panics "github.com/x/y" "https://proxy" false c9Env
    { statusCode := 200, bodyLines := [] } (by decide) rfl rfl

/-- C10 counterexample: an input containing a line consisting solely of
the word module does not always panic: when an earlier line already set
the module name, the parser returns the duplicate-module error instead. -/
theorem C10_counterexample :
    ParseMod ["module m", "module"]
      = .error (.malformed "invalid go.mod: multiple module lines") :=
  rfl

/-- C10 amended: a line consisting solely of module (resp. go) reached
while the record's module name (resp. go version) is still empty makes
ParseMod panic with an out-of-range index, while the require, replace and
retract directives are length-guarded and return the malformed error. -/
theorem C10_bare_directive_behaviour :
    (∀ (pre post : List String) (st : ParseState) (l : String),
        parseLines {} pre = .ok st → st.mf.name = "" →
        strStarts l "//" = false → fields l = ["module"] →
        ParseMod (pre ++ l :: post) = .error .panicked)
    ∧ (∀ (pre post : List String) (st : ParseState) (l : String),
        parseLines {} pre = .ok st → st.mf.goVersion = "" →
        strStarts l "//" = false → fields l = ["go"] →
        ParseMod (pre ++ l :: post) = .error .panicked)
    ∧ (∀ (l : String) (rest : List String),
        strStarts l "//" = false → fields l = ["require"] →
        ParseMod (l :: rest) = .error (.malformed "invalid go.mod: standalone require on a line"))
    ∧ (∀ (l : String) (rest : List String),
        strStarts l "//" = false → fields l = ["replace"] →
        ParseMod (l :: rest) = .error (.malformed "invalid go.mod: standalone replace on a line"))
    ∧ (∀ (l : String) (rest : List String),
        strStarts l "//" = false → fields l = ["retract"] →
        ParseMod (l :: rest) = .error (.malformed "invalid go.mod: standalone retract on a line")) := by
  refine ⟨?_, ?_, ?_, ?_, ?_⟩
  · intro pre post st l hpre hname hcl hfl
    unfold ParseMod
    rw [parseLines_append, hpre]
    simp [parseLines, parseLine, parseFields, hcl, hfl, hname]
  · intro pre post st l hpre hver hcl hfl
    unfold ParseMod
    rw [parseLines_append, hpre]
    simp [parseLines, parseLine, parseFields, hcl, hfl, hver]
  · intro l rest hcl hfl
    simp [ParseMod, parseLines, parseLine, parseFields, hcl, hfl]
  · intro l rest hcl hfl
    simp [ParseMod, parseLines, parseLine, parseFields, hcl, hfl]
  · intro l rest hcl hfl
    simp [ParseMod, parseLines, parseLine, parseFields, hcl, hfl]

/-- C10 witness: the amended behaviour on the bare module, go and require
lines. -/
theorem C10_bare_directive_behaviour_witness :
    ParseMod ["module"] = .error .panicked
    ∧ ParseMod ["go"] = .error .panicked
    ∧ ParseMod ["require"] = .error (.malformed "invalid go.mod: standalone require on a line") :=
  ⟨C10_bare_directive_behaviour.1 [] [] {} "module" rfl rfl (by decide) (by decide),
   C10_bare_directive_behaviour.2.1 [] [] {} "go" rfl rfl (by decide) (by decide),
   C10_bare_directive_behaviour.2.2.1 "require" [] (by decide) (by decide)⟩

end GoSrc
